import Mathlib

/-!
Verification of the conditional fan-out/fan-in workflow of this repository
(`src/workflow/fan_out_conditional.py`) and of the Gamma presentation executor
(`src/gamma/presentation_workflow.py`).

The four executors (`CheckpointExecutor`, `SplitterExecutor`, `WorkerExecutor`,
`AggregatorExecutor`) and the graph shape built by
`create_conditional_fan_out_workflow` are translated directly from the source.
The execution engine itself (`WorkflowBuilder`, `run_stream`, conditional-edge
routing, fan-out dispatch, fan-in buffering, terminal states) lives in the
external `agent_framework` package, which is not part of this repository's
sources; those parts are modelled from the specification (sections 4.3 to 4.6)
and are marked `Modelled from the spec:` below.

Randomness (`random.randint`), wall-clock time (`time.time`) and the arrival
order of concurrently produced worker results are environmental inputs; they
enter the model as explicit oracle parameters (`ExecConfig`).  Python floats
are modelled as rationals; no stated property depends on float rounding or on
the exact textual rendering of a float.
-/

namespace Maf

/-! ### Decimal rendering of worker indices

The source names workers with the Python f-string `f"worker_{i:02d}"`:
the decimal form of `i`, left-padded with zeros to at least two digits.
-/

/-- The character for one decimal digit (`0 ≤ d ≤ 9`). -/
def digitChar (d : ℕ) : Char :=
  match d with
  | 0 => '0' | 1 => '1' | 2 => '2' | 3 => '3' | 4 => '4'
  | 5 => '5' | 6 => '6' | 7 => '7' | 8 => '8' | 9 => '9'
  | _ => '*'

/-- Decimal rendering of a natural number, most significant digit first. -/
def natDecimalStr (n : ℕ) : String :=
  if n = 0 then "0" else String.mk (((Nat.digits 10 n).reverse).map digitChar)

/-- Python's format spec `02d`: left-pad the decimal form with zeros to
width at least 2. -/
def pad2 (s : String) : String :=
  if s.length < 2 then String.mk (List.replicate (2 - s.length) '0' ++ s.data) else s

/-- The id of the `i`-th worker, `f"worker_{i:02d}"` in the source. -/
def workerId (i : ℕ) : String :=
  "worker_" ++ pad2 (natDecimalStr i)

/-! ### ANSI colors (`Colors` class in the source) -/

namespace Colors

def RESET : String := "\x1b[0m"

def BOLD : String := "\x1b[1m"

def BRIGHT_GREEN : String := "\x1b[92m"

def BRIGHT_YELLOW : String := "\x1b[93m"

def BRIGHT_BLUE : String := "\x1b[94m"

def BRIGHT_MAGENTA : String := "\x1b[95m"

def BRIGHT_CYAN : String := "\x1b[96m"

/-- `Colors.colored`: wrap `text` in a color code and a reset code. -/
def colored (text : String) (color : String) : String :=
  color ++ text ++ RESET

end Colors

/-! ### Data model -/

/-- Result from a worker executor (`WorkerResult` pydantic model).
`processing_time` is a Python float in the source; floats are modelled as
rationals here. -/
structure WorkerResult where
  worker_id : String
  input_value : ℤ
  output_value : ℤ
  processing_time : ℚ
  deriving DecidableEq, Repr

/-- Result from the validator executor (`ValidationResult` pydantic model);
declared in the source but not used by the workflow. -/
structure ValidationResult where
  input_number : ℤ
  is_valid : Bool
  reason : String
  deriving DecidableEq, Repr

/-- Kind discriminator of the custom events (`CustomInfoEvent`,
`CustomSuccessEvent`, `CustomErrorEvent`). -/
inductive EventKind where
  | info
  | success
  | error
  deriving DecidableEq, Repr

/-- A custom workflow event: a kind plus a message. -/
structure CustomEvent where
  kind : EventKind
  message : String
  deriving DecidableEq, Repr

/-- One effect performed by a handler through its `WorkflowContext`:
emitting an event, sending a message downstream (type `μ`), or yielding the
workflow's terminal output (type `ω`).  A handler body is modelled as the
list of these actions in program order. -/
inductive Action (μ : Type) (ω : Type) where
  | addEvent (e : CustomEvent)
  | sendMessage (m : μ)
  | yieldOutput (o : ω)
  deriving DecidableEq, Repr

/-- The messages a handler sent, in program order. -/
def sentMessages {μ ω : Type} (acts : List (Action μ ω)) : List μ :=
  acts.filterMap fun a =>
    match a with
    | .sendMessage m => some m
    | _ => none

/-- The events a handler emitted, in program order. -/
def emittedEvents {μ ω : Type} (acts : List (Action μ ω)) : List CustomEvent :=
  acts.filterMap fun a =>
    match a with
    | .addEvent e => some e
    | _ => none

/-- The terminal outputs a handler yielded, in program order. -/
def yieldedOutputs {μ ω : Type} (acts : List (Action μ ω)) : List ω :=
  acts.filterMap fun a =>
    match a with
    | .yieldOutput o => some o
    | _ => none

/-- Rounding of a measured time to three decimals, standing in for Python's
`round(processing_time, 3)` (the source rounds an IEEE float; properties
stated here never depend on the rounding mode). -/
def roundTo3 (q : ℚ) : ℚ :=
  (⌊q * 1000 + 1 / 2⌋ : ℤ) / 1000

/-- Textual rendering of a measured time, standing in for the f-string
rendering of a Python float; no stated property depends on this text. -/
def floatStr (q : ℚ) : String :=
  toString q.num ++ "/" ++ toString q.den

/-- Textual rendering with the f-string format spec `.3f`. -/
def floatStr3 (q : ℚ) : String :=
  floatStr (roundTo3 q)

/-! ### Executors, translated from the source handlers -/

namespace CheckpointExecutor

/-- `CheckpointExecutor.process`: emit one info event and pass the number
through unchanged.  The conditional edge, not this handler, performs the
validation. -/
def process (number : ℤ) : List (Action ℤ Empty) :=
  [ .addEvent ⟨.info,
      "📋 Checkpoint received: " ++ Colors.colored (toString number) Colors.BRIGHT_BLUE⟩,
    .sendMessage number ]

end CheckpointExecutor

namespace SplitterExecutor

/-- `SplitterExecutor.split`: emit one info event and send the number to the
fan-out edges. -/
def split (number : ℤ) : List (Action ℤ Empty) :=
  [ .addEvent ⟨.info,
      "📤 Splitting into " ++ Colors.colored (toString number) Colors.BRIGHT_CYAN
        ++ " parallel workers..."⟩,
    .sendMessage number ]

end SplitterExecutor

namespace WorkerExecutor

/-- `WorkerExecutor.process`: emit a started info event, compute
`number * random.randint(1, 5) + random.randint(0, 10)`, emit a completed
success event, and send the `WorkerResult`.  The random factor and noise and
the measured elapsed time are environmental inputs, passed as `factor`,
`noise` and `elapsed`. -/
def process (wid : String) (factor noise : ℕ) (elapsed : ℚ) (number : ℤ) :
    List (Action WorkerResult Empty) :=
  let output : ℤ := number * (factor : ℤ) + (noise : ℤ)
  let result : WorkerResult :=
    { worker_id := wid
      input_value := number
      output_value := output
      processing_time := roundTo3 elapsed }
  [ .addEvent ⟨.info,
      "⚙️  Worker " ++ Colors.colored wid Colors.BRIGHT_YELLOW
        ++ " started processing input: "
        ++ Colors.colored (toString number) Colors.BRIGHT_BLUE⟩,
    .addEvent ⟨.success,
      "✓ Worker " ++ Colors.colored wid Colors.BRIGHT_YELLOW ++ " completed: "
        ++ "input=" ++ Colors.colored (toString number) Colors.BRIGHT_BLUE ++ ", "
        ++ "output=" ++ Colors.colored (toString output) Colors.BRIGHT_GREEN ++ ", "
        ++ "time=" ++ Colors.colored (floatStr3 elapsed ++ "s") Colors.BRIGHT_MAGENTA⟩,
    .sendMessage result ]

end WorkerExecutor

/-- A string of `n` copies of character `c` (Python `"=" * 80` etc.). -/
def repeatChar (c : Char) (n : ℕ) : String :=
  String.mk (List.replicate n c)

namespace AggregatorExecutor

/-- One result line of the summary table (the f-string appended inside the
source loop). -/
def resultLine (r : WorkerResult) : String :=
  "  " ++ Colors.colored r.worker_id Colors.BRIGHT_YELLOW ++ ": "
    ++ "input=" ++ Colors.colored (toString r.input_value) Colors.BRIGHT_BLUE ++ " → "
    ++ "output=" ++ Colors.colored (toString r.output_value) Colors.BRIGHT_GREEN ++ " "
    ++ "(" ++ Colors.colored (floatStr r.processing_time ++ "s") Colors.BRIGHT_MAGENTA ++ ")"

/-- The three header lines of the summary. -/
def headerLines : List String :=
  [ Colors.colored (repeatChar '=' 80) Colors.BOLD,
    Colors.colored "📊 WORKFLOW RESULTS SUMMARY" (Colors.BOLD ++ Colors.BRIGHT_GREEN),
    Colors.colored (repeatChar '=' 80) Colors.BOLD ]

/-- The total line of the summary. -/
def totalLine (total : ℤ) : String :=
  "  Total combined output: "
    ++ Colors.colored (toString total) (Colors.BOLD ++ Colors.BRIGHT_GREEN)

/-- `AggregatorExecutor.aggregate`: emit an info event, build the summary in
one pass over `results` (appending a line and accumulating the total exactly
as the source loop does), emit a success event and yield the joined text as
the workflow's output. -/
def aggregate (results : List WorkerResult) : List (Action Empty String) :=
  let folded : List String × ℤ :=
    results.foldl (fun acc r => (acc.1 ++ [resultLine r], acc.2 + r.output_value))
      (headerLines, 0)
  let output_lines : List String :=
    folded.1 ++
      [ Colors.colored (repeatChar '-' 80) Colors.BOLD,
        totalLine folded.2,
        Colors.colored (repeatChar '=' 80) Colors.BOLD ]
  let final_output := String.intercalate "\n" output_lines
  [ .addEvent ⟨.info,
      "🔄 Fan-in: Aggregating "
        ++ Colors.colored (toString results.length) Colors.BRIGHT_CYAN
        ++ " worker results..."⟩,
    .addEvent ⟨.success, "✓ Aggregation complete. Yielding final output."⟩,
    .yieldOutput final_output ]

end AggregatorExecutor

/-! ### The workflow graph and its execution

The graph shape is translated from `create_conditional_fan_out_workflow`;
the engine that runs it (conditional-edge routing, fan-out dispatch, fan-in
buffering, terminal states) is part of the external `agent_framework`
package and is modelled from the specification.
-/

/-- The shape of the workflow graph that `create_conditional_fan_out_workflow`
builds: the node ids, the designated start node, and the predicate guarding
the single conditional edge from the checkpoint to the splitter
(`lambda msg: isinstance(msg, int) and msg <= 10`; messages are typed as
integers here, so the `isinstance` conjunct always holds). -/
structure WorkflowGraph where
  startId : String
  nodeIds : List String
  condition : ℤ → Bool
  numWorkers : ℕ

/-- `create_conditional_fan_out_workflow(num_workers)`: checkpoint, splitter,
workers `worker_00 .. worker_{N-1}`, aggregator; conditional edge
checkpoint → splitter guarded by `msg <= 10`; fan-out splitter → workers;
fan-in workers → aggregator. -/
def create_conditional_fan_out_workflow (num_workers : ℕ) : WorkflowGraph :=
  { startId := "checkpoint"
    nodeIds :=
      "checkpoint" :: "splitter" :: ((List.range num_workers).map workerId ++ ["aggregator"])
    condition := fun msg => msg ≤ 10
    numWorkers := num_workers }

/-- Modelled from the spec: the terminal state of an Execution reachable by
this graph — `Completed(output)` when a node yielded a terminal output, or
`Halted` when all in-flight envelopes were routed or dropped and nothing
was yielded (spec section 4.6). -/
inductive Terminal where
  | Completed (output : String)
  | Halted
  deriving DecidableEq, Repr

/-- The environmental inputs of one execution: per-worker random factor
(`random.randint(1, 5)`), random noise (`random.randint(0, 10)`), measured
elapsed time, and the order in which the concurrently produced worker
results arrive at the fan-in (a permutation of the worker indices). -/
structure ExecConfig where
  factors : ℕ → ℕ
  noises : ℕ → ℕ
  times : ℕ → ℚ
  arrival : List ℕ

/-- Modelled from the spec: everything one execution of the fan-out/fan-in
graph did — for each node, the list of its invocations (each invocation
recorded as the handler's action list, workers paired with their index, the
aggregator paired with the sequence it received), plus the terminal state. -/
structure RunResult where
  checkpointRuns : List (List (Action ℤ Empty))
  splitterRuns : List (List (Action ℤ Empty))
  workerRuns : List (ℕ × List (Action WorkerResult Empty))
  aggregatorRuns : List (List WorkerResult × List (Action Empty String))
  terminal : Terminal

/-- Modelled from the spec: the `agent_framework` engine running the graph of
`create_conditional_fan_out_workflow N` on one initial value (spec sections
4.3 to 4.6): the start node (checkpoint) is invoked with the input; each
message it sends crosses the conditional edge only if the predicate holds,
else it is silently dropped; each message reaching the splitter is fanned
out to all `N` workers as independent invocations; the fan-in accumulator
records each member's delivery and, once every member of the group has
delivered (and the group saw any activity at all), invokes the aggregator
exactly once with the deliveries in arrival order; the execution completes
with the first yielded output, or halts with no output if nothing was
yielded. -/
def runWorkflow (N : ℕ) (cfg : ExecConfig) (input : ℤ) : RunResult :=
  let graph := create_conditional_fan_out_workflow N
  let cpActs := CheckpointExecutor.process input
  let toSplitter := (sentMessages cpActs).filter graph.condition
  let spRuns := toSplitter.map SplitterExecutor.split
  let spOut := spRuns.flatMap sentMessages
  let wRuns := spOut.flatMap fun m =>
    (List.range N).map fun i =>
      (i, WorkerExecutor.process (workerId i) (cfg.factors i) (cfg.noises i) (cfg.times i) m)
  let delivered := wRuns.flatMap fun p => (sentMessages p.2).map fun r => (p.1, r)
  let allDelivered :=
    !spOut.isEmpty && (List.range N).all fun i => (delivered.map Prod.fst).contains i
  let accumulated :=
    cfg.arrival.flatMap fun i => (delivered.filter fun p => p.1 == i).map Prod.snd
  let agRuns :=
    if allDelivered then [(accumulated, AggregatorExecutor.aggregate accumulated)] else []
  let outputs := agRuns.flatMap fun p => yieldedOutputs p.2
  { checkpointRuns := [cpActs]
    splitterRuns := spRuns
    workerRuns := wRuns
    aggregatorRuns := agRuns
    terminal :=
      match outputs with
      | [] => .Halted
      | o :: _ => .Completed o }

/-- All terminal outputs yielded during a run, in order. -/
def allYields (r : RunResult) : List String :=
  r.aggregatorRuns.flatMap fun p => yieldedOutputs p.2

/-! ### The Gamma presentation executor
(`GammaAPIExecutor` in `src/gamma/presentation_workflow.py`)

The handler `call_gamma_api` receives an agent response whose text it parses
with `json.loads`.  The parsed value is modelled by `ParsedJson`: the handler
only ever reads the entries `number_of_slides`, `audience` and `title` (with
`.get`, so a parsed value that is not a JSON object raises `AttributeError`),
and of those only `title` (via `str.replace`) and `number_of_slides` (via
`+ 1` in the payload, built before the `try` block) are used in a
type-sensitive way.  HTTP traffic, the wall clock bounding the polling loop,
and the filesystem are environmental; HTTP responses enter as an oracle, the
clock as the (finite) list of poll responses the clock admits, and file
writes are recorded as actions. -/

/-- A JSON value sitting in one of the three consulted entries: a string, an
integer, or anything else. -/
inductive JsonVal where
  | jstr (s : String)
  | jint (n : ℤ)
  | jother
  deriving DecidableEq, Repr

/-- The three entries of the parsed JSON object the handler consults. -/
structure JsonObj where
  title : Option JsonVal
  number_of_slides : Option JsonVal
  audience : Option JsonVal
  deriving DecidableEq, Repr

/-- A successfully parsed `json.loads` result: a JSON object, or any
non-object JSON value (array, string, number, boolean, null). -/
inductive ParsedJson where
  | obj (o : JsonObj)
  | nonObj
  deriving DecidableEq, Repr

/-- One observable effect of the handler. -/
inductive GammaAction where
  | logInfo (s : String)
  | logFail (s : String)
  | writeJsonFile (name : String)
  | httpPostGenerations
  | httpGetGeneration
  | httpGetPdf
  | writePdfFile (name : String)
  | sleep5
  | yieldOut (s : String)
  deriving DecidableEq, Repr

/-- How the handler's Python coroutine finished: a normal return, or an
uncaught exception. -/
inductive PyOutcome where
  | returned
  | raised (exn : String)
  deriving DecidableEq, Repr

/-- The full observable behaviour of one handler invocation. -/
structure GammaRun where
  actions : List GammaAction
  outcome : PyOutcome
  deriving DecidableEq, Repr

/-- Oracle for the `POST /generations` response. -/
structure PostResponse where
  status_code : ℤ
  text : String
  idField : Option String
  dump : String
  deriving DecidableEq, Repr

/-- Oracle for one `GET /generations/{id}` polling response. -/
structure PollResponse where
  status_code : ℤ
  status : Option String
  exportUrl : Option String
  dump : String
  deriving DecidableEq, Repr

/-- Oracle for all HTTP traffic of one invocation; `polls` is finite because
the wall clock bounds the polling loop at 300 seconds. -/
structure GammaHttpOracle where
  post : PostResponse
  polls : List PollResponse
  pdfStatus : ℤ
  deriving DecidableEq, Repr

/-- Python truthiness of the configured key: `if not GAMMA_API_KEY` is taken
when the key is `None` or the empty string. -/
def keyMissing (apiKey : Option String) : Bool :=
  match apiKey with
  | none => true
  | some s => s.isEmpty

/-- Rendering of a consulted JSON value inside an f-string log line (log
text is observed by no stated property). -/
def jsonValText (v : JsonVal) : String :=
  match v with
  | .jstr s => s
  | .jint n => toString n
  | .jother => "<value>"

/-- Python `title.replace(" ", "_")`. -/
def pyUnderscores (s : String) : String :=
  String.map (fun c => if c = ' ' then '_' else c) s

namespace GammaAPIExecutor

/-- `GammaAPIExecutor._poll_for_completion` without its entry log line: the
`while time.time() - start_time < max_wait` loop, one oracle entry per
iteration the clock admits; returns the actions performed and the completed
response, or `none` when the clock ran out (`TimeoutError`). -/
def pollLoop (genId : String) (polls : List PollResponse) :
    List GammaAction × Option PollResponse :=
  match polls with
  | [] => ([], none)
  | p :: rest =>
    if p.status_code = 200 then
      if p.status = some "completed" then
        ([.httpGetGeneration,
          .logInfo ("GAMMA - GET /generations/" ++ genId ++ " - Status: completed")],
         some p)
      else
        let tail := pollLoop genId rest
        (.httpGetGeneration
            :: .logInfo ("GAMMA - GET /generations/" ++ genId ++ " - Status: "
                ++ (p.status.getD "None"))
            :: .sleep5 :: tail.1,
         tail.2)
    else
      let tail := pollLoop genId rest
      (.httpGetGeneration :: .sleep5 :: tail.1, tail.2)

/-- `GammaAPIExecutor._download_pdf`: logs, fetches the PDF, raises
`RuntimeError` on a non-200 status, else writes the file and returns its
path. -/
def download_pdf (outputPath : String) (pdfStatus : ℤ) :
    List GammaAction × Option String :=
  let acts := [GammaAction.logInfo ("GAMMA - Downloading PDF to: " ++ outputPath),
               GammaAction.httpGetPdf]
  if pdfStatus = 200 then
    (acts ++ [.writePdfFile outputPath,
              .logInfo ("GAMMA - PDF saved successfully to: " ++ outputPath)],
     some outputPath)
  else
    (acts, none)

/-- The body of the `try` block of `call_gamma_api` (everything from the
`requests.post` on), with each exception raised inside it converted by the
`except` clause into a logged error and a yielded
`"Exception calling Gamma API: ..."` message. -/
def tryBlock (titleStr : String) (oracle : GammaHttpOracle) : List GammaAction :=
  let post := oracle.post
  let onExn (msg : String) (acts : List GammaAction) : List GammaAction :=
    acts ++ [.logFail ("GAMMA - \"" ++ titleStr ++ "\" - Exception: " ++ msg),
             .yieldOut ("Exception calling Gamma API: " ++ msg)]
  let acts0 := [GammaAction.httpPostGenerations]
  if post.status_code = 200 ∨ post.status_code = 201 then
    let genId := (post.idField.getD "")
    if genId = "" then
      acts0 ++ [.logFail ("GAMMA - \"" ++ titleStr ++ "\" - No generation ID in response"),
                .yieldOut ("No generation ID in response: " ++ post.dump)]
    else
      let acts1 := acts0 ++
        [.logInfo ("GAMMA - \"" ++ titleStr ++ "\" - POST /generations "
            ++ toString post.status_code ++ " - Generation ID: " ++ genId),
         .logInfo ("GAMMA - GET /generations/" ++ genId
            ++ " - Polling started (max wait: 300s)")]
      let polled := pollLoop genId oracle.polls
      match polled.2 with
      | none =>
        onExn "Presentation generation timed out after 300 seconds" (acts1 ++ polled.1)
      | some p =>
        let acts2 := acts1 ++ polled.1
        if (p.exportUrl.getD "") = "" then
          acts2 ++ [.logFail ("GAMMA - \"" ++ titleStr ++ "\" - No PDF URL in response"),
                    .yieldOut ("No PDF URL in response: " ++ p.dump)]
        else
          let pdfPath := pyUnderscores titleStr ++ ".pdf"
          let dl := download_pdf pdfPath oracle.pdfStatus
          match dl.2 with
          | none =>
            onExn ("Failed to download PDF (status " ++ toString oracle.pdfStatus ++ ")")
              (acts2 ++ dl.1)
          | some path =>
            acts2 ++ dl.1 ++
              [.logInfo ("GAMMA - \"" ++ titleStr ++ "\" - Presentation completed - "
                  ++ "PDF saved to: " ++ path),
               .yieldOut ("✓ Presentation created successfully!\nGeneration ID: " ++ genId
                  ++ "\nPDF URL: " ++ (p.exportUrl.getD "") ++ "\nPDF saved to: " ++ path)]
  else
    acts0 ++ [.logFail ("GAMMA - \"" ++ titleStr ++ "\" - POST /generations "
                ++ toString post.status_code),
              .yieldOut ("Gamma API Error: " ++ toString post.status_code
                ++ " - " ++ post.text)]

/-- `GammaAPIExecutor.call_gamma_api`, after `json.loads` succeeded on the
agent response text (a parse failure raises before any of this runs).
`.get` on a non-object raises `AttributeError`; `title.replace` on a
non-string title raises `AttributeError`; `number_of_slides + 1` in the
payload (built before the `try` block) raises `TypeError` on a non-integer;
with the key missing the handler yields the fixed error string and returns
before any HTTP is attempted. -/
def call_gamma_api (apiKey : Option String) (js : ParsedJson)
    (oracle : GammaHttpOracle) : GammaRun :=
  match js with
  | .nonObj => { actions := [], outcome := .raised "AttributeError" }
  | .obj o =>
    let number_of_slides := o.number_of_slides.getD (.jint 5)
    let audience := o.audience.getD (.jstr "general")
    let title := o.title.getD (.jstr "Untitled Presentation")
    let logAct := GammaAction.logInfo ("GAMMA - \"" ++ jsonValText title
      ++ "\" - Slides: " ++ jsonValText number_of_slides
      ++ ", Audience: " ++ jsonValText audience)
    match title with
    | .jstr titleStr =>
      let acts0 := [logAct, .writeJsonFile (pyUnderscores titleStr ++ "_response.json")]
      if keyMissing apiKey then
        { actions := acts0 ++ [.yieldOut "Error: GAMMA_API_KEY not found in environment"]
          outcome := .returned }
      else
        match number_of_slides with
        | .jint _ => { actions := acts0 ++ tryBlock titleStr oracle, outcome := .returned }
        | _ => { actions := acts0, outcome := .raised "TypeError" }
    | _ => { actions := [logAct], outcome := .raised "AttributeError" }

end GammaAPIExecutor

/-- The terminal outputs a `GammaRun` yielded, in order. -/
def gammaYields (run : GammaRun) : List String :=
  run.actions.filterMap fun a =>
    match a with
    | .yieldOut s => some s
    | _ => none

/-- Whether an action is an HTTP request. -/
def isHttpAction (a : GammaAction) : Bool :=
  match a with
  | .httpPostGenerations => true
  | .httpGetGeneration => true
  | .httpGetPdf => true
  | _ => false

/-! ### Derived notions used by the statements and proofs -/

/-- The numeric value of a decimal digit character. -/
def charToDigit (c : Char) : ℕ :=
  c.toNat - 48

/-- The number a digit string denotes (leading zeros allowed). -/
def strVal (s : String) : ℕ :=
  Nat.ofDigits 10 ((s.data.map charToDigit).reverse)

/-- The `WorkerResult` that worker `i` sends for input `m` under the
environmental inputs `cfg` (read off `WorkerExecutor.process`). -/
def workerOutput (cfg : ExecConfig) (i : ℕ) (m : ℤ) : WorkerResult :=
  { worker_id := workerId i
    input_value := m
    output_value := m * (cfg.factors i : ℤ) + (cfg.noises i : ℤ)
    processing_time := roundTo3 (cfg.times i) }

/-- The sequence the fan-in accumulator hands to the aggregator on a
validated input `m`: the deliveries of the workers in arrival order. -/
def fanInSeq (N : ℕ) (cfg : ExecConfig) (m : ℤ) : List WorkerResult :=
  cfg.arrival.flatMap fun i => if i < N then [workerOutput cfg i m] else []

/-- The shape of one handler action, forgetting payloads: an emitted event of
a given kind, a sent message, or a yielded output. -/
inductive ActTag where
  | evt (k : EventKind)
  | send
  | yld
  deriving DecidableEq, Repr

/-- The shape of an action. -/
def actionTag {μ ω : Type} (a : Action μ ω) : ActTag :=
  match a with
  | .addEvent e => .evt e.kind
  | .sendMessage _ => .send
  | .yieldOutput _ => .yld

/-- A concrete choice of environmental inputs for three workers, used to
instantiate proved properties on a concrete run. -/
def cfgW : ExecConfig :=
  { factors := fun _ => 2
    noises := fun _ => 3
    times := fun _ => 1 / 2
    arrival := [1, 0, 2] }

/-- A concrete choice of environmental inputs for Scenario A (five workers,
input 5, results arriving in index order). -/
def cfgA : ExecConfig :=
  { factors := fun _ => 2
    noises := fun _ => 3
    times := fun _ => 1 / 2
    arrival := [0, 1, 2, 3, 4] }

/-- The aggregator input of Scenario A under `cfgA`: five worker results for
input 5, each with output `5 * 2 + 3 = 13`. -/
def scenarioAList : List WorkerResult :=
  (List.range 5).map fun i => workerOutput cfgA i 5

/-- A concrete HTTP oracle for instantiating Gamma properties (never
consulted on the key-missing path). -/
def oracle0 : GammaHttpOracle :=
  { post := { status_code := 200, text := "", idField := none, dump := "" }
    polls := []
    pdfStatus := 200 }

/-! ## Theorems -/

/-- C9: the checkpoint node is a pure pass-through: for every integer input,
`CheckpointExecutor.process` sends exactly one outgoing message whose value
equals the received input unchanged, emits exactly one info event, and never
yields a terminal output. -/
theorem checkpoint_pass_through (number : ℤ) :
    sentMessages (CheckpointExecutor.process number) = [number] ∧
    (emittedEvents (CheckpointExecutor.process number)).map CustomEvent.kind
      = [EventKind.info] ∧
    yieldedOutputs (CheckpointExecutor.process number) = [] :=
  ⟨rfl, rfl, rfl⟩

/-- C8: a worker invocation with integer input `n ≥ 0` emits exactly one
`WorkerResult`, whose `input_value` is `n`, whose `worker_id` is the worker's
own id, and whose `output_value` is `n * f + r` for the random factor
`f ∈ {1, ..., 5}` and noise `r ∈ {0, ..., 10}`, hence
`n ≤ output_value ≤ 5 * n + 10`. -/
theorem worker_result_bounds (wid : String) (factor noise : ℕ) (elapsed : ℚ)
    (number : ℤ) (hf1 : 1 ≤ factor) (hf5 : factor ≤ 5) (hns : noise ≤ 10)
    (h0 : 0 ≤ number) :
    (sentMessages (WorkerExecutor.process wid factor noise elapsed number)).length = 1 ∧
    ∀ r ∈ sentMessages (WorkerExecutor.process wid factor noise elapsed number),
      r.worker_id = wid ∧ r.input_value = number ∧
      r.output_value = number * (factor : ℤ) + (noise : ℤ) ∧
      number ≤ r.output_value ∧ r.output_value ≤ 5 * number + 10 := by
  have hsent : sentMessages (WorkerExecutor.process wid factor noise elapsed number)
      = [{ worker_id := wid, input_value := number,
           output_value := number * (factor : ℤ) + (noise : ℤ),
           processing_time := roundTo3 elapsed }] := rfl
  rw [hsent]
  refine ⟨rfl, ?_⟩
  intro r hr
  have hr0 := List.mem_singleton.mp hr
  subst hr0
  have hf1z : (1 : ℤ) ≤ (factor : ℤ) := by exact_mod_cast hf1
  have hf5z : (factor : ℤ) ≤ 5 := by exact_mod_cast hf5
  have hnz : (0 : ℤ) ≤ (noise : ℤ) := Int.natCast_nonneg noise
  have hnz10 : (noise : ℤ) ≤ 10 := by exact_mod_cast hns
  refine ⟨rfl, rfl, rfl, ?_, ?_⟩
  · show number ≤ number * (factor : ℤ) + (noise : ℤ)
    nlinarith
  · show number * (factor : ℤ) + (noise : ℤ) ≤ 5 * number + 10
    nlinarith

/-- Witness for `worker_result_bounds` at `wid = "worker_00"`, `factor = 2`,
`noise = 3`, `elapsed = 1/2`, `number = 4`. -/
theorem worker_result_bounds_witness :
    (1 ≤ 2 ∧ 2 ≤ 5 ∧ 3 ≤ 10 ∧ (0 : ℤ) ≤ 4) ∧
    ((sentMessages (WorkerExecutor.process "worker_00" 2 3 (1 / 2) 4)).length = 1 ∧
      ∀ r ∈ sentMessages (WorkerExecutor.process "worker_00" 2 3 (1 / 2) 4),
        r.worker_id = "worker_00" ∧ r.input_value = 4 ∧
        r.output_value = 4 * ((2 : ℕ) : ℤ) + ((3 : ℕ) : ℤ) ∧
        (4 : ℤ) ≤ r.output_value ∧ r.output_value ≤ 5 * 4 + 10) :=
  ⟨by decide,
   worker_result_bounds "worker_00" 2 3 (1 / 2) 4
     (by decide) (by decide) (by decide) (by decide)⟩

/-- Reading a rendered digit back gives the digit. -/
lemma charToDigit_digitChar {d : ℕ} (hd : d < 10) : charToDigit (digitChar d) = d := by
  interval_cases d <;> decide

/-- A block of zero digits contributes nothing. -/
lemma ofDigits_replicate_zero (k : ℕ) : Nat.ofDigits 10 (List.replicate k 0) = 0 := by
  induction k with
  | zero => rfl
  | succ n ih => simp [List.replicate_succ, Nat.ofDigits_cons, ih]

/-- Trailing zero digits do not change the denoted number. -/
lemma ofDigits_append_zeros (l : List ℕ) (k : ℕ) :
    Nat.ofDigits 10 (l ++ List.replicate k 0) = Nat.ofDigits 10 l := by
  rw [Nat.ofDigits_append, ofDigits_replicate_zero]
  simp

/-- Zero-padding does not change the denoted number. -/
lemma strVal_pad2 (s : String) : strVal (pad2 s) = strVal s := by
  unfold pad2
  by_cases h : s.length < 2
  · simp only [if_pos h]
    show Nat.ofDigits 10
        (((List.replicate (2 - s.length) '0' ++ s.data).map charToDigit).reverse)
      = strVal s
    have h0 : charToDigit '0' = 0 := by decide
    rw [List.map_append, List.map_replicate, h0, List.reverse_append,
      List.reverse_replicate]
    exact ofDigits_append_zeros _ _
  · simp only [if_neg h]

/-- The decimal rendering denotes the rendered number. -/
lemma strVal_natDecimalStr (n : ℕ) : strVal (natDecimalStr n) = n := by
  unfold natDecimalStr
  by_cases h : n = 0
  · subst h
    decide
  · simp only [if_neg h]
    show Nat.ofDigits 10
        ((((Nat.digits 10 n).reverse.map digitChar).map charToDigit).reverse) = n
    rw [List.map_map]
    have hmap : (Nat.digits 10 n).reverse.map (charToDigit ∘ digitChar)
        = (Nat.digits 10 n).reverse.map id := by
      refine List.map_congr_left ?_
      intro d hd
      exact charToDigit_digitChar
        (Nat.digits_lt_base (by norm_num) (List.mem_reverse.mp hd))
    rw [hmap, List.map_id, List.reverse_reverse, Nat.ofDigits_digits]

/-- Distinct worker indices produce distinct worker ids. -/
lemma workerId_injective : Function.Injective workerId := by
  intro i j h
  have hd : (pad2 (natDecimalStr i)).data = (pad2 (natDecimalStr j)).data := by
    have h2 := congrArg String.data h
    rw [show workerId i = "worker_" ++ pad2 (natDecimalStr i) from rfl,
      show workerId j = "worker_" ++ pad2 (natDecimalStr j) from rfl,
      String.data_append, String.data_append] at h2
    exact List.append_cancel_left h2
  have hv := congrArg (fun l : List Char => Nat.ofDigits 10 ((l.map charToDigit).reverse)) hd
  have hv2 : strVal (pad2 (natDecimalStr i)) = strVal (pad2 (natDecimalStr j)) := hv
  rwa [strVal_pad2, strVal_pad2, strVal_natDecimalStr, strVal_natDecimalStr] at hv2

/-- Every worker id starts with the character `w`. -/
lemma workerId_data_head (i : ℕ) : (workerId i).data.head? = some 'w' := by
  rw [show workerId i = "worker_" ++ pad2 (natDecimalStr i) from rfl, String.data_append]
  rfl

/-- C6: node identifiers are unique within the graph: for every `N ≥ 0`, the
node ids built by `create_conditional_fan_out_workflow N` — `"checkpoint"`,
`"splitter"`, `"worker_00"` through worker `N - 1` (decimal, zero-padded to
at least two digits), and `"aggregator"` — are pairwise distinct strings. -/
theorem node_ids_unique (N : ℕ) :
    (create_conditional_fan_out_workflow N).nodeIds.Nodup := by
  have hhead : ∀ s ∈ (List.range N).map workerId, s.data.head? = some 'w' := by
    intro s hs
    obtain ⟨i, _, rfl⟩ := List.mem_map.mp hs
    exact workerId_data_head i
  show ("checkpoint" :: "splitter"
      :: ((List.range N).map workerId ++ ["aggregator"])).Nodup
  refine List.nodup_cons.mpr ⟨?_, List.nodup_cons.mpr ⟨?_, ?_⟩⟩
  · intro hmem
    rcases List.mem_cons.mp hmem with h | h
    · exact absurd h (by decide)
    · rcases List.mem_append.mp h with h | h
      · exact absurd (hhead _ h) (by decide)
      · exact absurd (List.mem_singleton.mp h) (by decide)
  · intro hmem
    rcases List.mem_append.mp hmem with h | h
    · exact absurd (hhead _ h) (by decide)
    · exact absurd (List.mem_singleton.mp h) (by decide)
  · refine List.Nodup.append ?_ (List.nodup_singleton _) ?_
    · exact List.Nodup.map workerId_injective (List.nodup_range N)
    · intro s hs hs2
      have h1 := hhead _ hs
      rw [List.mem_singleton.mp hs2] at h1
      exact absurd h1 (by decide)

/-- The one message a worker sends is its `workerOutput`. -/
lemma sentMessages_worker (cfg : ExecConfig) (i : ℕ) (m : ℤ) :
    sentMessages (WorkerExecutor.process (workerId i) (cfg.factors i) (cfg.noises i)
        (cfg.times i) m)
      = [workerOutput cfg i m] := rfl

/-- Filtering the indexed deliveries of the workers for one index keeps
exactly that worker's delivery (when the index is a worker index). -/
lemma filter_fst_map_range {α : Type} (f : ℕ → α) (N i : ℕ) :
    (((List.range N).map fun j => (j, f j)).filter fun p => p.1 == i)
      = if i < N then [(i, f i)] else [] := by
  induction N with
  | zero => simp
  | succ n ih =>
    rw [List.range_succ, List.map_append, List.filter_append, ih]
    by_cases h : i < n
    · have hne : (n == i) = false := by simp; omega
      have h2 : i < n + 1 := Nat.lt_succ_of_lt h
      simp [List.filter, hne, h, h2]
    · by_cases h2 : i = n
      · subst h2
        simp [List.filter, h]
      · have hne : (n == i) = false := by simp; omega
        have h3 : ¬ i < n + 1 := by omega
        simp [List.filter, hne, h, h3]

/-- A `flatMap` of singletons is a `map`. -/
lemma flatMap_singleton_map {α β : Type} (l : List α) (f : α → β) :
    (l.flatMap fun a => [f a]) = l.map f := by
  induction l with
  | nil => rfl
  | cons a t ih => simp [ih]

/-- Projecting the delivery away from the guarded filter of the indexed
deliveries. -/
lemma map_snd_filter_fst {α : Type} (f : ℕ → α) (N i : ℕ) :
    ((((List.range N).map fun j => (j, f j)).filter fun p => p.1 == i).map Prod.snd)
      = if i < N then [f i] else [] := by
  rw [filter_fst_map_range]
  by_cases hi : i < N <;> simp [hi]

/-- A guarded `flatMap` of singletons over in-range indices is a `map`. -/
lemma flatMap_if_lt {α : Type} (N : ℕ) (g : ℕ → α) (l : List ℕ)
    (h : ∀ i ∈ l, i < N) :
    (l.flatMap fun i => if i < N then [g i] else []) = l.map g := by
  induction l with
  | nil => rfl
  | cons a t ih =>
    rw [List.flatMap_cons, if_pos (h a (List.mem_cons_self a t)), List.map_cons,
      ih fun i hi => h i (List.mem_cons_of_mem a hi)]
    rfl

/-- On a validated input the splitter is invoked exactly once, with the
checkpoint's message. -/
lemma runWorkflow_splitterRuns_valid (N : ℕ) (cfg : ExecConfig) (input : ℤ)
    (h : input ≤ 10) :
    (runWorkflow N cfg input).splitterRuns = [SplitterExecutor.split input] := by
  simp [runWorkflow, CheckpointExecutor.process, sentMessages,
    create_conditional_fan_out_workflow, h]

/-- On a validated input every worker is invoked exactly once, with the
splitter's message. -/
lemma runWorkflow_workerRuns_valid (N : ℕ) (cfg : ExecConfig) (input : ℤ)
    (h : input ≤ 10) :
    (runWorkflow N cfg input).workerRuns
      = (List.range N).map fun i =>
          (i, WorkerExecutor.process (workerId i) (cfg.factors i) (cfg.noises i)
            (cfg.times i) input) := by
  simp [runWorkflow, CheckpointExecutor.process, SplitterExecutor.split, sentMessages,
    create_conditional_fan_out_workflow, h]

/-- On a validated input the fan-in completes and the aggregator is invoked
exactly once, with the deliveries in arrival order. -/
lemma runWorkflow_aggregatorRuns_valid (N : ℕ) (cfg : ExecConfig) (input : ℤ)
    (h : input ≤ 10) :
    (runWorkflow N cfg input).aggregatorRuns
      = [(fanInSeq N cfg input, AggregatorExecutor.aggregate (fanInSeq N cfg input))] := by
  have hsc : sentMessages (CheckpointExecutor.process input) = [input] := rfl
  have hss : sentMessages (SplitterExecutor.split input) = [input] := rfl
  have hfil : List.filter (fun msg => decide (msg ≤ 10)) [input] = [input] := by
    simp [h]
  simp only [runWorkflow, create_conditional_fan_out_workflow, hsc, hfil,
    List.map_cons, List.map_nil, List.flatMap_cons, List.flatMap_nil,
    List.append_nil, hss, List.flatMap_map, sentMessages_worker,
    flatMap_singleton_map, List.map_map, map_snd_filter_fst]
  simp [fanInSeq, Function.comp, List.mem_range, List.contains]

/-- With the arrival order drawn from the worker indices, the fan-in sequence
is the arrival-ordered list of the workers' outputs. -/
lemma fanInSeq_eq_map (N : ℕ) (cfg : ExecConfig) (m : ℤ)
    (h : ∀ i ∈ cfg.arrival, i < N) :
    fanInSeq N cfg m = cfg.arrival.map fun i => workerOutput cfg i m :=
  flatMap_if_lt N _ _ h

/-- With the arrival order a permutation of the worker indices, the fan-in
sequence is a permutation of the index-ordered worker outputs. -/
lemma fanInSeq_perm (N : ℕ) (cfg : ExecConfig) (m : ℤ)
    (hp : cfg.arrival.Perm (List.range N)) :
    (fanInSeq N cfg m).Perm ((List.range N).map fun i => workerOutput cfg i m) := by
  rw [fanInSeq_eq_map N cfg m fun i hi => List.mem_range.mp (hp.mem_iff.mp hi)]
  exact hp.map _

/-- A list of impossible values is empty. -/
lemma list_empty_eq_nil (l : List Empty) : l = [] :=
  match l with
  | [] => rfl
  | e :: _ => e.elim

/-- A map whose function is constant on the list is a `replicate`. -/
lemma map_const_replicate {α β : Type} {L : List α} {f : α → β} {c : β}
    (h : ∀ x ∈ L, f x = c) : L.map f = List.replicate L.length c := by
  induction L with
  | nil => rfl
  | cons a t ih =>
    rw [List.map_cons, h a (List.mem_cons_self a t), List.length_cons,
      List.replicate_succ, ih fun x hx => h x (List.mem_cons_of_mem a hx)]

/-- The fused summary fold of the aggregator, separated: the accumulated
lines are the initial lines followed by one result line per input, and the
accumulated total is the initial total plus the sum of the output values. -/
lemma aggregate_foldl (results : List WorkerResult) (ls : List String) (t : ℤ) :
    results.foldl
        (fun acc r => (acc.1 ++ [AggregatorExecutor.resultLine r], acc.2 + r.output_value))
        (ls, t)
      = (ls ++ results.map AggregatorExecutor.resultLine,
         t + (results.map WorkerResult.output_value).sum) := by
  induction results generalizing ls t with
  | nil => simp
  | cons r rest ih =>
    simp only [List.foldl_cons, ih, List.map_cons, List.sum_cons]
    simp [List.append_assoc, add_assoc]

/-- C1: for every `N ≥ 0`, running the graph of
`create_conditional_fan_out_workflow N` on a validated integer input (≤ 10)
produces exactly `N` worker invocations, and the fan-in aggregator is invoked
exactly once, receiving an accumulated list of `WorkerResult` of length
exactly `N`. -/
theorem fan_out_width (N : ℕ) (cfg : ExecConfig) (input : ℤ)
    (hvalid : input ≤ 10) (harr : cfg.arrival.Perm (List.range N)) :
    (runWorkflow N cfg input).workerRuns.length = N ∧
    (runWorkflow N cfg input).aggregatorRuns.length = 1 ∧
    ((runWorkflow N cfg input).aggregatorRuns.map fun p => p.1.length) = [N] := by
  rw [runWorkflow_workerRuns_valid N cfg input hvalid,
    runWorkflow_aggregatorRuns_valid N cfg input hvalid]
  refine ⟨by simp, rfl, ?_⟩
  have hlen := (fanInSeq_perm N cfg input harr).length_eq
  simp only [List.length_map, List.length_range] at hlen
  simp [hlen]

/-- Witness for `fan_out_width` at `N = 3`, `cfg = cfgW`, `input = 5`. -/
theorem fan_out_width_witness :
    ((5 : ℤ) ≤ 10 ∧ cfgW.arrival.Perm (List.range 3)) ∧
    ((runWorkflow 3 cfgW 5).workerRuns.length = 3 ∧
     (runWorkflow 3 cfgW 5).aggregatorRuns.length = 1 ∧
     ((runWorkflow 3 cfgW 5).aggregatorRuns.map fun p => p.1.length) = [3]) :=
  ⟨⟨by decide, by decide⟩, fan_out_width 3 cfgW 5 (by decide) (by decide)⟩

/-- C2: with the conditional edge guarded by `value ≤ 10` between checkpoint
and splitter, submitting 12 yields a `Halted` terminal (which carries no
output) with zero downstream invocations — the splitter, the workers and the
aggregator are never invoked, the value is silently dropped without error —
while submitting 8 yields exactly one downstream invocation of the
splitter. -/
theorem conditional_drop (N : ℕ) (cfg : ExecConfig) :
    (runWorkflow N cfg 12).terminal = Terminal.Halted ∧
    (runWorkflow N cfg 12).splitterRuns = [] ∧
    (runWorkflow N cfg 12).workerRuns = [] ∧
    (runWorkflow N cfg 12).aggregatorRuns = [] ∧
    (runWorkflow N cfg 8).splitterRuns.length = 1 := by
  have h8 := runWorkflow_splitterRuns_valid N cfg 8 (by norm_num)
  have hsc : sentMessages (CheckpointExecutor.process (12 : ℤ)) = [12] := rfl
  have hfil : List.filter (fun msg => decide (msg ≤ 10)) [(12 : ℤ)] = [] := by
    simp
  refine ⟨?_, ?_, ?_, ?_, by rw [h8]; rfl⟩ <;>
    simp [runWorkflow, create_conditional_fan_out_workflow, hsc, hfil]

/-- C3: on a validated input, regardless of the arrival order of the `N`
worker results at the fan-in, the aggregator receives each of the `N`
workers' emitted `WorkerResult` values exactly once: the list it receives is
a permutation of the concatenation of the workers' sent messages (whose
order may differ between runs). -/
theorem fan_in_receives_all (N : ℕ) (cfg : ExecConfig) (input : ℤ)
    (hvalid : input ≤ 10) (harr : cfg.arrival.Perm (List.range N)) :
    ∀ call ∈ (runWorkflow N cfg input).aggregatorRuns,
      call.1.Perm
        ((runWorkflow N cfg input).workerRuns.flatMap fun p => sentMessages p.2) := by
  rw [runWorkflow_aggregatorRuns_valid N cfg input hvalid,
    runWorkflow_workerRuns_valid N cfg input hvalid]
  intro call hc
  rw [List.mem_singleton.mp hc]
  have hw : (((List.range N).map fun i =>
        (i, WorkerExecutor.process (workerId i) (cfg.factors i) (cfg.noises i)
          (cfg.times i) input)).flatMap fun p => sentMessages p.2)
      = (List.range N).map fun i => workerOutput cfg i input := by
    rw [List.flatMap_map]
    simp [sentMessages_worker, flatMap_singleton_map]
  rw [hw]
  exact fanInSeq_perm N cfg input harr

/-- Witness for `fan_in_receives_all` at `N = 3`, `cfg = cfgW`, `input = 5`. -/
theorem fan_in_receives_all_witness :
    ((5 : ℤ) ≤ 10 ∧ cfgW.arrival.Perm (List.range 3)) ∧
    (∀ call ∈ (runWorkflow 3 cfgW 5).aggregatorRuns,
      call.1.Perm
        ((runWorkflow 3 cfgW 5).workerRuns.flatMap fun p => sentMessages p.2)) :=
  ⟨⟨by decide, by decide⟩, fan_in_receives_all 3 cfgW 5 (by decide) (by decide)⟩

/-- C5: for every execution, at most one yield-output call is honored: the
terminal state is `Completed` with the value of the first yield when any
yield happened and `Halted` otherwise, every aggregator invocation yields
exactly once, and the other nodes (workers shown here; checkpoint and
splitter cannot yield by the type of their context) yield nothing. -/
theorem single_terminal_output (N : ℕ) (cfg : ExecConfig) (input : ℤ) :
    (runWorkflow N cfg input).terminal
      = (match allYields (runWorkflow N cfg input) with
         | [] => Terminal.Halted
         | o :: _ => Terminal.Completed o) ∧
    ((runWorkflow N cfg input).aggregatorRuns.map fun p => (yieldedOutputs p.2).length)
      = List.replicate (runWorkflow N cfg input).aggregatorRuns.length 1 ∧
    ((runWorkflow N cfg input).workerRuns.map fun p => yieldedOutputs p.2)
      = List.replicate (runWorkflow N cfg input).workerRuns.length ([] : List Empty) := by
  refine ⟨rfl, ?_, ?_⟩
  · apply map_const_replicate
    intro p hp
    simp only [runWorkflow] at hp
    split at hp
    · rw [List.mem_singleton.mp hp]
      rfl
    · exact absurd hp (List.not_mem_nil p)
  · apply map_const_replicate
    intro p _
    exact list_empty_eq_nil _

/-- C7: events emitted from the same worker invocation appear in the order
the node produced them: every worker invocation's action sequence is the
started info event, then the completed success event, then (only after both)
the sent `WorkerResult`; the model imposes no order between the actions of
different worker invocations. -/
theorem worker_event_order (N : ℕ) (cfg : ExecConfig) (input : ℤ) :
    ((runWorkflow N cfg input).workerRuns.map fun p => p.2.map actionTag)
      = List.replicate (runWorkflow N cfg input).workerRuns.length
          [ActTag.evt EventKind.info, ActTag.evt EventKind.success, ActTag.send] := by
  apply map_const_replicate
  intro p hp
  simp only [runWorkflow] at hp
  obtain ⟨m, _, hp2⟩ := List.mem_flatMap.mp hp
  obtain ⟨i, _, rfl⟩ := List.mem_map.mp hp2
  rfl

/-- C4: for every non-empty list of worker results, the aggregator's yielded
output is the newline-join of the three header lines, one result line per
element of the list in list order, and a footer whose total line reports the
sum of the `output_value` fields over the whole list. -/
theorem aggregator_summary (results : List WorkerResult) (_hne : results ≠ []) :
    yieldedOutputs (AggregatorExecutor.aggregate results)
      = [String.intercalate "\n"
          (AggregatorExecutor.headerLines
            ++ results.map AggregatorExecutor.resultLine
            ++ [Colors.colored (repeatChar '-' 80) Colors.BOLD,
                AggregatorExecutor.totalLine ((results.map WorkerResult.output_value).sum),
                Colors.colored (repeatChar '=' 80) Colors.BOLD])] ∧
    (results.map AggregatorExecutor.resultLine).length = results.length := by
  refine ⟨?_, by simp⟩
  simp [AggregatorExecutor.aggregate, yieldedOutputs, aggregate_foldl]

/-- Witness for `aggregator_summary` at the Scenario A aggregator input:
five worker results for input 5 (so the output holds 5 result lines and the
computed total). -/
theorem aggregator_summary_witness :
    scenarioAList ≠ [] ∧
    (yieldedOutputs (AggregatorExecutor.aggregate scenarioAList)
        = [String.intercalate "\n"
            (AggregatorExecutor.headerLines
              ++ scenarioAList.map AggregatorExecutor.resultLine
              ++ [Colors.colored (repeatChar '-' 80) Colors.BOLD,
                  AggregatorExecutor.totalLine
                    ((scenarioAList.map WorkerResult.output_value).sum),
                  Colors.colored (repeatChar '=' 80) Colors.BOLD])] ∧
      (scenarioAList.map AggregatorExecutor.resultLine).length
        = scenarioAList.length) :=
  ⟨by decide, aggregator_summary scenarioAList (by decide)⟩

/-- C10, counterexample: the claim quantifies over every agent response whose
text parses as JSON.  The text `"[1, 2]"` parses as JSON but not as a JSON
object, and `response_json.get("number_of_slides", 5)` then raises
`AttributeError` before the key check is ever reached: with the key missing
the handler raises and yields nothing, contrary to the claimed single yield
and exception-free return. -/
theorem gamma_nonobject_counterexample :
    (GammaAPIExecutor.call_gamma_api none ParsedJson.nonObj oracle0).outcome
      = PyOutcome.raised "AttributeError" ∧
    gammaYields (GammaAPIExecutor.call_gamma_api none ParsedJson.nonObj oracle0) = [] :=
  ⟨rfl, rfl⟩

/-- C10, amended: if `GAMMA_API_KEY` is unset or empty, then for every
incoming agent response whose text parses as a JSON object whose `title`
entry, when present, is a string, `GammaAPIExecutor.call_gamma_api` yields
exactly one terminal output, the string
`"Error: GAMMA_API_KEY not found in environment"`, returns without raising,
and performs no HTTP request. -/
theorem gamma_missing_key (apiKey : Option String) (o : JsonObj)
    (oracle : GammaHttpOracle) (hkey : keyMissing apiKey = true)
    (htitle : o.title = none ∨ ∃ s, o.title = some (JsonVal.jstr s)) :
    (GammaAPIExecutor.call_gamma_api apiKey (ParsedJson.obj o) oracle).outcome
      = PyOutcome.returned ∧
    gammaYields (GammaAPIExecutor.call_gamma_api apiKey (ParsedJson.obj o) oracle)
      = ["Error: GAMMA_API_KEY not found in environment"] ∧
    ((GammaAPIExecutor.call_gamma_api apiKey (ParsedJson.obj o) oracle).actions.all
      fun a => !isHttpAction a) = true := by
  rcases htitle with ht | ⟨s, ht⟩ <;>
    simp [GammaAPIExecutor.call_gamma_api, ht, hkey, gammaYields, isHttpAction]

/-- Witness for `gamma_missing_key` at a missing key and an all-defaults
JSON object. -/
theorem gamma_missing_key_witness :
    keyMissing none = true ∧
    (GammaAPIExecutor.call_gamma_api none (ParsedJson.obj ⟨none, none, none⟩)
        oracle0).outcome = PyOutcome.returned ∧
    gammaYields (GammaAPIExecutor.call_gamma_api none (ParsedJson.obj ⟨none, none, none⟩)
        oracle0) = ["Error: GAMMA_API_KEY not found in environment"] ∧
    ((GammaAPIExecutor.call_gamma_api none (ParsedJson.obj ⟨none, none, none⟩)
        oracle0).actions.all fun a => !isHttpAction a) = true := by
  have h := gamma_missing_key none ⟨none, none, none⟩ oracle0 rfl (Or.inl rfl)
  exact ⟨rfl, h.1, h.2.1, h.2.2⟩

end Maf
